import Mathlib

/-!
Verification of the install-tracker repository: a shallow embedding, in Lean 4, of the three source files of the
install-tracker repository:

* the Netlify proxy function (`netlify/functions/technicians.js`): an OAuth
  client-credentials token exchange followed by a technicians resource fetch;
* the client data adapter (`src/api/getTechnicians.ts`): a fail-soft fetch of
  the proxy endpoint;
* the InstallTracker component: a deterministic demo-record generator, a
  filter/group/summarize reporting aggregator, and a CSV exporter.

JavaScript numbers are modelled as `ℚ` (the generator only ever produces
integer dollar amounts, and every floor/rounding step performed on doubles in
the source is exact at the magnitudes involved, so the rational model agrees
with the JavaScript semantics on all reachable values).  JSON payloads are
modelled by an explicit `Json` inductive together with JavaScript truthiness,
so that expressions such as `data.technicians || []` and
`data?.data?.length || 0` can be translated verbatim.
-/

namespace InstallTracker

/-! Section: JSON values and JavaScript truthiness -/

/-- A JSON value, as produced by `res.json()` / `JSON.parse`. -/
inductive Json where
  | null : Json
  | bool (b : Bool) : Json
  | num (q : ℚ) : Json
  | str (s : String) : Json
  | arr (elems : List Json) : Json
  | obj (fields : List (String × Json)) : Json

/-- JavaScript truthiness of a JSON value (`undefined` is modelled by
`Option.none` at use sites, never by a `Json` constructor). -/
def truthy : Json → Bool
  | .null => false
  | .bool b => b
  | .num q => decide (q ≠ 0)
  | .str s => decide (s ≠ "")
  | .arr _ => true
  | .obj _ => true

/-- Property access `j.k` on a parsed JSON value: yields the field of an
object, and `undefined` (= `none`) on every non-object.  (Access on `null`
throws in JavaScript; call sites model that explicitly.) -/
def getField : Json → String → Option Json
  | .obj fields, k => (fields.find? (fun p => p.1 == k)).map (fun p => p.2)
  | _, _ => none

/-- Is the value a JSON array? -/
def isArr : Json → Bool
  | .arr _ => true
  | _ => false

/-- The UTF-16 code units of a character, as JavaScript strings are indexed. -/
def utf16Units (c : Char) : List ℕ :=
  if c.toNat < 65536 then [c.toNat]
  else [55296 + (c.toNat - 65536) / 1024, 56320 + (c.toNat - 65536) % 1024]

/-- JavaScript `s.length`: the number of UTF-16 code units. -/
def utf16Length (s : String) : ℚ :=
  ((s.data.map (fun c => (utf16Units c).length)).sum : ℕ)

/-- JavaScript `.length` property of a JSON value: arrays and strings have a
numeric length, objects may carry a literal `"length"` field, and numbers /
booleans / null have none (`undefined`). -/
def jsLength : Json → Option Json
  | .arr xs => some (.num xs.length)
  | .str s => some (.num (utf16Length s))
  | .obj fields => (fields.find? (fun p => p.1 == "length")).map (fun p => p.2)
  | _ => none

/-! Section: Client data adapter (`src/api/getTechnicians.ts`)

```js
export async function getTechnicians() {
  try {
    const res = await fetch("/.netlify/functions/technicians");
    if (!res.ok) throw new Error(`Failed to fetch technicians: ...`);
    const data = await res.json();
    return data.technicians || [];
  } catch (err) { console.error(...); return []; }
}
```
-/

/-- The observable outcome of `fetch("/.netlify/functions/technicians")`:
either the promise rejects (network error), or a response arrives with an
`ok` flag and a body that parses to JSON or does not. -/
inductive FetchOutcome where
  | netError : FetchOutcome
  | response (ok : Bool) (bodyJson : Option Json) : FetchOutcome

/-- Function `getTechnicians`, translated path by path: a rejected fetch, a thrown
non-ok error, a failed `res.json()`, and the throwing access
`null.technicians` all land in the `catch` and return `[]`; otherwise the
function returns `data.technicians || []`. -/
def getTechnicians : FetchOutcome → Json
  | .netError => .arr []
  | .response ok body =>
    if ok then
      match body with
      | none => .arr []
      | some .null => .arr []
      | some data =>
        match getField data "technicians" with
        | some v => if truthy v then v else .arr []
        | none => .arr []
    else .arr []

/-! Section: Proxy function (`netlify/functions/technicians.js`) -/

/-- The five required environment values; the empty string models an unset or
empty variable (both are falsy under the `!baseUrl || ...` check). -/
structure EnvConfig where
  stBaseUrl : String
  stTenantId : String
  stAppKey : String
  clientId : String
  clientSecret : String

/-- An upstream HTTP response: status code, raw body text, and the JSON value
the body parses to (if any). -/
structure HttpResp where
  status : ℕ
  bodyText : String
  bodyJson : Option Json

/-- Node-fetch `res.ok`: status in the range [200, 300). -/
def respOk (r : HttpResp) : Bool := decide (200 ≤ r.status) && decide (r.status < 300)

/-- The two upstream calls the handler can issue, in order. -/
inductive UpstreamCall where
  | tokenExchange : UpstreamCall
  | resourceFetch : UpstreamCall
deriving DecidableEq

/-- The body of a handler result: raw upstream text surfaced verbatim, a
stringified `{ error }` object, or the stringified success payload
`{ pathUsed, authMode, count, technicians }`. -/
inductive HandlerBody where
  | raw (text : String) : HandlerBody
  | errorJson (message : String) : HandlerBody
  | payload (pathUsed authMode : String) (count : Json) (technicians : Json) : HandlerBody

/-- What the handler returns, together with the trace of upstream calls it
performed (each at most once; the list records issue order). -/
structure HandlerResult where
  statusCode : ℕ
  body : HandlerBody
  calls : List UpstreamCall

/-- The literal message of the missing-configuration error body. -/
def missingEnvMsg : String :=
  "Missing env vars. Need ST_BASE_URL, ST_TENANT_ID, ST_APP_KEY, SERVICETITAN_CLIENT_ID, SERVICETITAN_CLIENT_SECRET."

/-- The check `!baseUrl || !tenantId || !appKey || !clientId || !clientSecret`. -/
def envMissing (env : EnvConfig) : Bool :=
  env.stBaseUrl == "" || env.stTenantId == "" || env.stAppKey == "" ||
    env.clientId == "" || env.clientSecret == ""

/-- The expression `data?.data?.length || 0` of the resource response body. -/
def countOf (data : Json) : Json :=
  match getField data "data" with
  | none => .num 0
  | some v =>
    match v with
    | .null => .num 0
    | v' =>
      match jsLength v' with
      | none => .num 0
      | some len => if truthy len then len else .num 0

/-- The expression `data?.data || []` of the resource response body. -/
def techsOf (data : Json) : Json :=
  match getField data "data" with
  | none => .arr []
  | some v => if truthy v then v else .arr []

/-- The proxy handler, as a function of the configuration and of the two
upstream responses it would receive if it issued the corresponding calls.
The `calls` trace lists the upstream requests actually performed. -/
def handler (env : EnvConfig) (tokenResp resResp : HttpResp) : HandlerResult :=
  if envMissing env then
    { statusCode := 500, body := .errorJson missingEnvMsg, calls := [] }
  else if !respOk tokenResp then
    { statusCode := tokenResp.status, body := .raw tokenResp.bodyText,
      calls := [.tokenExchange] }
  else
    match tokenResp.bodyJson with
    | none =>
      -- `await tokenResp.json()` throws on a non-JSON body; the catch returns 500.
      { statusCode := 500, body := .errorJson "Unexpected token in JSON",
        calls := [.tokenExchange] }
    | some .null =>
      -- `tokenJson.access_token` throws a TypeError on null; caught, 500.
      { statusCode := 500, body := .errorJson "Cannot read properties of null",
        calls := [.tokenExchange] }
    | some _ =>
      if !respOk resResp then
        { statusCode := resResp.status, body := .raw resResp.bodyText,
          calls := [.tokenExchange, .resourceFetch] }
      else
        match resResp.bodyJson with
        | none =>
          { statusCode := 500, body := .errorJson "Unexpected token in JSON",
            calls := [.tokenExchange, .resourceFetch] }
        | some data =>
          { statusCode := 200,
            body := .payload ("/settings/v2/tenant/" ++ env.stTenantId ++ "/technicians")
              "bearer+appkey" (countOf data) (techsOf data),
            calls := [.tokenExchange, .resourceFetch] }

/-! Section: Calendar arithmetic (`addDaysISO`)

```js
function addDaysISO(baseISO, deltaDays) {
  const d = new Date(baseISO + "T00:00:00");
  d.setDate(d.getDate() + deltaDays);
  return d.toISOString().slice(0, 10);
}
```

`Date` arithmetic is modelled by the proleptic-Gregorian civil calendar (the
behaviour of the source under a UTC clock: parsing and re-serialising use the
same offset, so the composite is a pure calendar shift).  A date string that
`Date` cannot parse would make `toISOString` throw; the model returns `none`
there. -/

/-- Gregorian leap-year rule. -/
def isLeap (y : ℤ) : Bool := (y % 4 == 0 && y % 100 != 0) || y % 400 == 0

/-- Days in a month of a given year. -/
def daysInMonth (y : ℤ) (m : ℕ) : ℕ :=
  if m = 2 then (if isLeap y then 29 else 28)
  else if m = 4 ∨ m = 6 ∨ m = 9 ∨ m = 11 then 30
  else 31

/-- Day count since 1970-01-01 of a civil date (`ℤ` division is floor
division for the positive divisors used here). -/
def daysFromCivil (y m d : ℤ) : ℤ :=
  let yAdj := if m ≤ 2 then y - 1 else y
  let era := yAdj / 400
  let yoe := yAdj - era * 400
  let mp := (m + 9) % 12
  let doy := (153 * mp + 2) / 5 + d - 1
  let doe := yoe * 365 + yoe / 4 - yoe / 100 + doy
  era * 146097 + doe - 719468

/-- Civil date (year, month, day) of a day count since 1970-01-01. -/
def civilFromDays (z : ℤ) : ℤ × ℤ × ℤ :=
  let zShift := z + 719468
  let era := zShift / 146097
  let doe := zShift - era * 146097
  let yoe := (doe - doe / 1460 + doe / 36524 - doe / 146096) / 365
  let y := yoe + era * 400
  let doy := doe - (365 * yoe + yoe / 4 - yoe / 100)
  let mp := (5 * doy + 2) / 153
  let d := doy - (153 * mp + 2) / 5 + 1
  let m := if mp < 10 then mp + 3 else mp - 9
  (if m ≤ 2 then y + 1 else y, m, d)

/-- The numeric value of an ASCII digit. -/
def digitVal? (c : Char) : Option ℕ :=
  if 48 ≤ c.toNat ∧ c.toNat ≤ 57 then some (c.toNat - 48) else none

/-- Parse a nonempty all-digit character run as a natural number. -/
def parseNatDigits : List Char → Option ℕ
  | [] => none
  | cs => cs.foldl (fun acc c => acc.bind fun n => (digitVal? c).map fun d => n * 10 + d)
      (some 0)

/-- Parse an ISO `YYYY-MM-DD` date string into a valid civil date. -/
def parseISO (s : String) : Option (ℤ × ℤ × ℤ) :=
  match s.data.splitOn '-' with
  | [ys, ms, ds] =>
    match parseNatDigits ys, parseNatDigits ms, parseNatDigits ds with
    | some y, some m, some d =>
      if 1 ≤ m ∧ m ≤ 12 ∧ 1 ≤ d ∧ d ≤ daysInMonth y m then
        some ((y : ℤ), (m : ℤ), (d : ℤ))
      else none
    | _, _, _ => none
  | _ => none

/-- Left-pad the decimal form of a natural number with zeros. -/
def padNum (w n : ℕ) : String :=
  let s := toString n
  (List.replicate (w - s.length) '0').asString ++ s

/-- Serialise a civil date back to `YYYY-MM-DD`. -/
def formatISO (y m d : ℤ) : String :=
  padNum 4 y.toNat ++ "-" ++ padNum 2 m.toNat ++ "-" ++ padNum 2 d.toNat

/-- Function `addDaysISO`: parse, shift by whole days, re-serialise. -/
def addDaysISO (s : String) (delta : ℤ) : Option String :=
  (parseISO s).map fun ymd =>
    let t := civilFromDays (daysFromCivil ymd.1 ymd.2.1 ymd.2.2 + delta)
    formatISO t.1 t.2.1 t.2.2

/-! Section: Deterministic demo-data generator

```js
function seededRandom(seed) {
  let s = seed % 2147483647;
  if (s <= 0) s += 2147483646;
  return () => (s = (s * 48271) % 2147483647) / 2147483647;
}
```

Each call advances the Lehmer state and yields `s / 2147483647`.  The only
consumptions are `Math.floor(rng() * n)` for `n ≤ 81`; at these magnitudes
the double rounding of `s / 2147483647` and of the product cannot move the
value across an integer (the exact value is at distance ≥ 1/2147483647 from
every integer, far above the accumulated rounding error), so the floor is
the exact `s * n / 2147483647` in integer arithmetic. -/

/-- One step of the Lehmer generator. -/
def lcgNext (s : ℕ) : ℕ := s * 48271 % 2147483647

/-- Initial state from a seed (`if (s <= 0) s += 2147483646`). -/
def seedInit (seed : ℕ) : ℕ :=
  let s := seed % 2147483647
  if s = 0 then 2147483646 else s

/-- JavaScript `| 0`: wrap an integer to a signed 32-bit value. -/
def toInt32 (n : ℤ) : ℤ := (n + 2147483648) % 4294967296 - 2147483648

/-- Function `strSeed`: the 31-style string hash over UTF-16 code units, then
`Math.abs`. -/
def strSeed (s : String) : ℕ :=
  (((s.data.map utf16Units).flatten).foldl (fun h c => toInt32 (h * 31 + c)) 0).natAbs

/-- The value `Math.floor(rng() * n)` where `s` is the state after the call. -/
def rngFloor (s n : ℕ) : ℕ := s * n / 2147483647

/-- The configured technician roster. -/
def TECHS : List String := ["Austin", "Adam", "Tim", "Kaleb", "Hunter", "Miguel"]

/-- The configured installer set. -/
def INSTALLERS : List String := ["Mike", "Steven", "Bubba", "Josh"]

/-- First names used by `randomName`. -/
def FIRST_NAMES : List String :=
  ["Amy", "Ben", "Chloe", "David", "Elena", "Frank", "Grace", "Hector", "Ivy",
   "Jake", "Kara", "Liam", "Maya", "Nolan", "Olivia", "Parker", "Quinn",
   "Riley", "Sofia", "Ty", "Uma", "Vince", "Wes", "Xena", "Yara", "Zane"]

/-- Last names used by `randomName`. -/
def LAST_NAMES : List String :=
  ["Baker", "Lopez", "Nguyen", "Khan", "Foster", "Smith", "Johnson",
   "Williams", "Brown", "Jones", "Garcia", "Miller", "Davis", "Rodriguez",
   "Martinez", "Hernandez", "Moore", "Taylor", "Anderson", "Thomas"]

/-- An installation record (`number` fields as `ℚ`). -/
structure InstallRecord where
  date : String
  installDate : String
  soldDate : String
  invoiceAmount : ℚ
  customerName : String
  installerName : String
  soldByTech : String
deriving DecidableEq, Inhabited, Repr

/-- One loop body of `fetchInstallsDemo`: the five `rng()` consumptions in
source order (sold offset, invoice dollars, last name, first name, selling
tech), returning the record and the advanced generator state.
`dollars(rng)` is `1200 + Math.floor(rng() * 81) * 50`. -/
def mkRecord (dateISO installer : String) (s : ℕ) : InstallRecord × ℕ :=
  let s1 := lcgNext s
  let soldOffset : ℤ := -(3 + (rngFloor s1 26 : ℤ))
  let soldDate := (addDaysISO dateISO soldOffset).getD ""
  let s2 := lcgNext s1
  let amount : ℚ := 1200 + (rngFloor s2 81 : ℚ) * 50
  let s3 := lcgNext s2
  let lastName := LAST_NAMES.getD (rngFloor s3 20) ""
  let s4 := lcgNext s3
  let firstName := FIRST_NAMES.getD (rngFloor s4 26) ""
  let s5 := lcgNext s4
  let tech := TECHS.getD (rngFloor s5 6) ""
  ({ date := dateISO, installDate := dateISO, soldDate := soldDate,
     invoiceAmount := amount, customerName := lastName ++ ", " ++ firstName,
     installerName := installer, soldByTech := tech }, s5)

/-- The two nested loops of `fetchInstallsDemo`: exactly two records per
installer, in installer order, threading the generator state. -/
def genList (dateISO : String) : List String → ℕ → List InstallRecord
  | [], _ => []
  | installer :: rest, s =>
    let p1 := mkRecord dateISO installer s
    let p2 := mkRecord dateISO installer p1.2
    p1.1 :: p2.1 :: genList dateISO rest p2.2

/-- Function `fetchInstallsDemo` (the simulated latency is irrelevant to the value). -/
def fetchInstallsDemo (dateISO : String) : List InstallRecord :=
  genList dateISO INSTALLERS (seedInit (strSeed dateISO))

/-! Section: Reporting aggregator

`filtered`, `grouped`, `techSummary` / `installerSummary` and `exportCSV`
from the InstallTracker component.  JavaScript's stable `Array.prototype.sort`
is modelled by `List.insertionSort` (stable), `localeCompare` by the
code-point order on strings, and the first-occurrence key order of a `Map`
by `firstDedup`. -/

/-- The grouping dimension (`"tech" | "installer"`). -/
inductive GroupMode where
  | tech : GroupMode
  | installer : GroupMode
deriving DecidableEq

/-- The key function `keyFor` of `grouped`. -/
def keyFor (mode : GroupMode) (r : InstallRecord) : String :=
  match mode with
  | .tech => r.soldByTech
  | .installer => r.installerName

/-- The filter `allData.filter(d => selectedTechs.includes(d.soldByTech) &&
selectedInstallers.includes(d.installerName))`. -/
def filtered (allData : List InstallRecord) (selectedTechs selectedInstallers : List String) :
    List InstallRecord :=
  allData.filter fun r =>
    decide (r.soldByTech ∈ selectedTechs) && decide (r.installerName ∈ selectedInstallers)

/-- The keys of an insertion-ordered `Map`, accumulating the keys already
seen: first occurrences, in order. -/
def firstDedupAux (seen : List String) : List String → List String
  | [] => []
  | k :: ks =>
    if k ∈ seen then firstDedupAux seen ks else k :: firstDedupAux (k :: seen) ks

/-- The keys of an insertion-ordered `Map`: first occurrences, in order. -/
def firstDedup (l : List String) : List String := firstDedupAux [] l

/-- Descending invoice-amount comparison (`(a, b) => b.invoiceAmount -
a.invoiceAmount`). -/
def amtGE (a b : InstallRecord) : Prop := b.invoiceAmount ≤ a.invoiceAmount

instance : DecidableRel amtGE := fun a b =>
  inferInstanceAs (Decidable (b.invoiceAmount ≤ a.invoiceAmount))

instance : IsTotal InstallRecord amtGE :=
  ⟨fun a b => le_total b.invoiceAmount a.invoiceAmount⟩

instance : IsTrans InstallRecord amtGE :=
  ⟨fun _ _ _ h1 h2 => le_trans h2 h1⟩

/-- One group of the detail view. -/
structure Group where
  label : String
  rows : List InstallRecord
  subtotal : ℚ
deriving DecidableEq, Inhabited

/-- The rows of one group: the records with the group's key, in input order,
then sorted by invoice amount descending. -/
def groupRows (mode : GroupMode) (recs : List InstallRecord) (label : String) :
    List InstallRecord :=
  List.insertionSort amtGE (recs.filter fun r => decide (keyFor mode r = label))

/-- Function `grouped`: group labels in first-occurrence order, sorted by
`localeCompare`; each group carries its sorted rows and subtotal. -/
def grouped (mode : GroupMode) (recs : List InstallRecord) : List Group :=
  (List.insertionSort (· ≤ ·) (firstDedup (recs.map (keyFor mode)))).map fun lab =>
    let rows := groupRows mode recs lab
    { label := lab, rows := rows, subtotal := (rows.map (·.invoiceAmount)).sum }

/-- The coercion `+(x).toFixed(2)`: round to the nearest hundredth (ties up, as `toFixed`
does for the nonnegative values that occur). -/
def round2 (q : ℚ) : ℚ := (round (q * 100) : ℤ) / 100

/-- A summary row of range mode. -/
structure SummaryRow where
  name : String
  count : ℕ
  total : ℚ
  commission : ℚ
deriving DecidableEq, Inhabited

/-- Descending total comparison (`(a, b) => b.total - a.total`). -/
def totGE (a b : SummaryRow) : Prop := b.total ≤ a.total

instance : DecidableRel totGE := fun a b =>
  inferInstanceAs (Decidable (b.total ≤ a.total))

instance : IsTotal SummaryRow totGE := ⟨fun a b => le_total b.total a.total⟩

instance : IsTrans SummaryRow totGE := ⟨fun _ _ _ h1 h2 => le_trans h2 h1⟩

/-- The shared body of `techSummary` and `installerSummary`: map each group
to a summary row with commission `+(total * rate).toFixed(2)`, then sort by
total descending. -/
def summaryRows (rate : ℚ) (gs : List Group) : List SummaryRow :=
  List.insertionSort totGE (gs.map fun g =>
    { name := g.label, count := g.rows.length, total := g.subtotal,
      commission := round2 (g.subtotal * rate) })

/-- Summary `techSummary` (range mode, grouping by technician, rate 0.05). -/
def techSummary (recs : List InstallRecord) (selT selI : List String) : List SummaryRow :=
  summaryRows (5 / 100) (grouped .tech (filtered recs selT selI))

/-- Summary `installerSummary` (range mode, grouping by installer, rate 0.075). -/
def installerSummary (recs : List InstallRecord) (selT selI : List String) :
    List SummaryRow :=
  summaryRows (75 / 1000) (grouped .installer (filtered recs selT selI))

/-! Section: CSV export -/

/-- The double-quote character. -/
def quoteChar : Char := Char.ofNat 34

/-- The regex replacement doubling every embedded quote, on the character list. -/
def doubleQuotes : List Char → List Char
  | [] => []
  | c :: rest =>
    if c = quoteChar then quoteChar :: quoteChar :: doubleQuotes rest else c :: doubleQuotes rest

/-- The escaped field body as a string. -/
def escapeQuotes (s : String) : String := ⟨doubleQuotes s.data⟩

/-- One emitted CSV cell: `` `"${String(cell).replace(/"/g, '""')}"` ``. -/
def csvCell (s : String) : String := "\"" ++ escapeQuotes s ++ "\""

/-- Undo the quote doubling; `none` on a lone quote. -/
def undouble : List Char → Option (List Char)
  | [] => some []
  | c :: rest =>
    if c = quoteChar then
      match rest with
      | [] => none
      | c2 :: rest2 =>
        if c2 = quoteChar then (undouble rest2).map (fun l => quoteChar :: l) else none
    else (undouble rest).map (fun l => c :: l)

/-- CSV cell parser: strip one outer quote pair, undo the doubling. -/
def csvUnquote (t : String) : Option String :=
  match t.data with
  | [] => none
  | c :: rest =>
    if c = quoteChar ∧ rest ≠ [] ∧ rest.getLast? = some quoteChar then
      (undouble rest.dropLast).map (fun l => ⟨l⟩)
    else none

/-- The header row of the export. -/
def CSV_HEADERS : List String :=
  ["Group", "Sales Tech", "Invoice $$", "COMMISSION", "Customer", "Installer",
   "Sold Date", "Install Date"]

/-- JavaScript `String(cell)` for the numeric cells.  The export claims
proved below do not depend on the decimal rendering. -/
def ratToCell (q : ℚ) : String := toString q

/-- One record row of the export. -/
def recordLine (rate : ℚ) (g : Group) (r : InstallRecord) : List String :=
  [g.label, r.soldByTech, ratToCell r.invoiceAmount,
   ratToCell (round2 (r.invoiceAmount * rate)), r.customerName, r.installerName,
   r.soldDate, r.installDate]

/-- The subtotal row appended after each group. -/
def subtotalLine (rate : ℚ) (g : Group) : List String :=
  ["Subtotal for " ++ g.label, "", ratToCell g.subtotal,
   ratToCell (round2 (g.subtotal * rate)), "", "", "", ""]

/-- The full line structure of `exportCSV`: headers, then per group its
record rows followed by one subtotal row. -/
def exportLines (rate : ℚ) (gs : List Group) : List (List String) :=
  CSV_HEADERS :: gs.flatMap fun g => g.rows.map (recordLine rate g) ++ [subtotalLine rate g]

/-- The emitted CSV text: every cell quoted and escaped, cells joined by
commas, lines by newlines. -/
def exportCSV (rate : ℚ) (gs : List Group) : String :=
  String.intercalate "\n"
    ((exportLines rate gs).map fun line => String.intercalate "," (line.map csvCell))

/-! Section: Helper lemmas -/

/-- The head (with default) of a nonempty list is a member. -/
theorem headD_mem {α : Type} [Inhabited α] {l : List α} (h : l ≠ []) :
    l.headD default ∈ l := by
  cases l with
  | nil => exact absurd rfl h
  | cons a t => exact List.mem_cons_self a t

/-- Every summary row carries commission `round2 (total * rate)`. -/
theorem summaryRows_commission (rate : ℚ) (gs : List Group) :
    ∀ row ∈ summaryRows rate gs, row.commission = round2 (row.total * rate) := by
  intro row hrow
  simp only [summaryRows, List.mem_insertionSort, List.mem_map] at hrow
  obtain ⟨g, _, rfl⟩ := hrow
  rfl

/-- Membership in `firstDedupAux`. -/
theorem firstDedupAux_mem (x : String) : ∀ (l seen : List String),
    x ∈ firstDedupAux seen l ↔ x ∈ l ∧ x ∉ seen := by
  intro l
  induction l with
  | nil => intro seen; simp [firstDedupAux]
  | cons k ks ih =>
    intro seen
    by_cases hk : k ∈ seen
    · rw [firstDedupAux, if_pos hk, ih]
      constructor
      · exact fun h => ⟨List.mem_cons_of_mem _ h.1, h.2⟩
      · rintro ⟨h1, h2⟩
        rcases List.mem_cons.mp h1 with rfl | h1
        · exact absurd hk h2
        · exact ⟨h1, h2⟩
    · rw [firstDedupAux, if_neg hk]
      simp only [List.mem_cons, ih, not_or]
      constructor
      · rintro (rfl | ⟨h1, h2⟩)
        · exact ⟨Or.inl rfl, hk⟩
        · exact ⟨Or.inr h1, h2.2⟩
      · rintro ⟨rfl | h1, h2⟩
        · exact Or.inl rfl
        · by_cases hxk : x = k
          · exact Or.inl hxk
          · exact Or.inr ⟨h1, hxk, h2⟩

/-- Membership is preserved by `firstDedup`. -/
theorem firstDedup_mem (l : List String) (x : String) : x ∈ firstDedup l ↔ x ∈ l := by
  rw [firstDedup, firstDedupAux_mem]
  simp

/-- The list built by `firstDedupAux` has no duplicates. -/
theorem firstDedupAux_nodup : ∀ (l seen : List String), (firstDedupAux seen l).Nodup := by
  intro l
  induction l with
  | nil => intro seen; simp [firstDedupAux]
  | cons k ks ih =>
    intro seen
    by_cases hk : k ∈ seen
    · rw [firstDedupAux, if_pos hk]; exact ih _
    · rw [firstDedupAux, if_neg hk]
      refine List.nodup_cons.mpr ⟨fun hmem => ?_, ih _⟩
      exact ((firstDedupAux_mem k ks (k :: seen)).mp hmem).2 (List.mem_cons_self _ _)

/-- The list built by `firstDedup` has no duplicates. -/
theorem firstDedup_nodup (l : List String) : (firstDedup l).Nodup := firstDedupAux_nodup l []

/-- Sums distribute over pointwise addition of mapped functions. -/
theorem sum_map_add (L : List String) (f g : String → ℚ) :
    (L.map fun x => f x + g x).sum = (L.map f).sum + (L.map g).sum := by
  induction L with
  | nil => simp
  | cons a t ih => simp only [List.map_cons, List.sum_cons, ih]; ring

/-- Summing an indicator of a key over a duplicate-free list containing the
key yields the single value. -/
theorem sum_map_single (L : List String) (k : String) (v : ℚ) (hnd : L.Nodup) (hk : k ∈ L) :
    (L.map fun lab => if k = lab then v else 0).sum = v := by
  induction L with
  | nil => cases hk
  | cons a t ih =>
    rcases List.mem_cons.mp hk with rfl | hmem
    · have ha : k ∉ t := (List.nodup_cons.mp hnd).1
      have hz : (t.map fun lab => if k = lab then v else 0).sum = 0 := by
        apply List.sum_eq_zero
        intro x hx
        obtain ⟨lab, hlab, rfl⟩ := List.mem_map.mp hx
        have : k ≠ lab := fun he => ha (he ▸ hlab)
        simp [this]
      simp [hz]
    · have hka : k ≠ a := fun he => (List.nodup_cons.mp hnd).1 (he ▸ hmem)
      simp only [List.map_cons, List.sum_cons, if_neg hka,
        ih (List.nodup_cons.mp hnd).2 hmem, zero_add]

/-- Partitioning a record list by key over a duplicate-free label list that
covers every key preserves the total invoice amount. -/
theorem sum_filter_partition (key : InstallRecord → String) (L : List String)
    (hnd : L.Nodup) (recs : List InstallRecord) (hcov : ∀ r ∈ recs, key r ∈ L) :
    (L.map fun lab =>
      ((recs.filter fun r => decide (key r = lab)).map (·.invoiceAmount)).sum).sum
      = (recs.map (·.invoiceAmount)).sum := by
  induction recs with
  | nil => simp
  | cons r rest ih =>
    have hcr : key r ∈ L := hcov r (List.mem_cons_self _ _)
    have hcov' : ∀ x ∈ rest, key x ∈ L := fun x hx => hcov x (List.mem_cons_of_mem _ hx)
    have hsplit : ∀ lab : String,
        ((List.filter (fun x => decide (key x = lab)) (r :: rest)).map (·.invoiceAmount)).sum
          = (if key r = lab then r.invoiceAmount else 0)
            + ((rest.filter fun x => decide (key x = lab)).map (·.invoiceAmount)).sum := by
      intro lab
      by_cases h : key r = lab
      · simp [List.filter_cons, h]
      · simp [List.filter_cons, h]
    simp only [hsplit]
    rw [sum_map_add, sum_map_single L (key r) _ hnd hcr, ih hcov']
    simp

/-- The subtotal of a group equals the amount sum of the unsorted filter. -/
theorem groupRows_sum (mode : GroupMode) (recs : List InstallRecord) (lab : String) :
    ((groupRows mode recs lab).map (·.invoiceAmount)).sum
      = ((recs.filter fun r => decide (keyFor mode r = lab)).map (·.invoiceAmount)).sum :=
  ((List.perm_insertionSort amtGE _).map _).sum_eq

/-- The group subtotals of `grouped` always sum to the total invoice amount
of the grouped records. -/
theorem grouped_subtotal_sum (mode : GroupMode) (recs : List InstallRecord) :
    ((grouped mode recs).map (·.subtotal)).sum = (recs.map (·.invoiceAmount)).sum := by
  unfold grouped
  rw [List.map_map]
  show ((List.insertionSort (· ≤ ·) (firstDedup (recs.map (keyFor mode)))).map
      (fun lab => ((groupRows mode recs lab).map (·.invoiceAmount)).sum)).sum = _
  simp only [groupRows_sum]
  apply sum_filter_partition
  · exact (List.perm_insertionSort _ _).nodup_iff.mpr (firstDedup_nodup _)
  · intro r hr
    exact (List.mem_insertionSort _).mpr
      ((firstDedup_mem _ _).mpr (List.mem_map_of_mem _ hr))

/-- The Lehmer step always lands strictly below the modulus. -/
theorem lcgNext_lt (s : ℕ) : lcgNext s < 2147483647 :=
  Nat.mod_lt _ (by norm_num)

/-- The floor `Math.floor(rng() * n)` is strictly below `n`. -/
theorem rngFloor_lt (s n : ℕ) (hs : s < 2147483647) (hn : 0 < n) : rngFloor s n < n := by
  rw [rngFloor]
  apply Nat.div_lt_of_lt_mul
  exact Nat.mul_lt_mul_of_pos_right hs hn

/-- Indexing with `getD` at an in-bounds index yields a member. -/
theorem getD_mem {α : Type} (l : List α) (i : ℕ) (d : α) (h : i < l.length) :
    l.getD i d ∈ l := by
  rw [List.getD_eq_getElem l d h]
  exact List.getElem_mem h

/-- The generated installer field is the loop's installer. -/
theorem mkRecord_installerName (dateISO installer : String) (s : ℕ) :
    (mkRecord dateISO installer s).1.installerName = installer := rfl

/-- The generated install date is the requested date. -/
theorem mkRecord_installDate (dateISO installer : String) (s : ℕ) :
    (mkRecord dateISO installer s).1.installDate = dateISO := rfl

/-- The generated selling technician is on the configured roster. -/
theorem mkRecord_soldByTech_mem (dateISO installer : String) (s : ℕ) :
    (mkRecord dateISO installer s).1.soldByTech ∈ TECHS := by
  apply getD_mem
  exact rngFloor_lt _ _ (lcgNext_lt _) (by norm_num)

/-- For a parseable date, the generated sold date is the install date
shifted back by the generated offset, which lies in [3, 28]. -/
theorem mkRecord_soldDate (dateISO installer : String) (s : ℕ)
    (h : (parseISO dateISO).isSome) :
    ∃ off : ℕ, 3 ≤ off ∧ off ≤ 28 ∧
      addDaysISO ((mkRecord dateISO installer s).1.installDate) (-(off : ℤ))
        = some ((mkRecord dateISO installer s).1.soldDate) := by
  obtain ⟨ymd, hymd⟩ := Option.isSome_iff_exists.mp h
  refine ⟨3 + rngFloor (lcgNext s) 26, Nat.le_add_right 3 _, ?_, ?_⟩
  · have h26 : rngFloor (lcgNext s) 26 < 26 :=
      rngFloor_lt _ _ (lcgNext_lt s) (by norm_num)
    omega
  · have hcast : (-((3 + rngFloor (lcgNext s) 26 : ℕ) : ℤ))
        = -(3 + (rngFloor (lcgNext s) 26 : ℤ)) := by push_cast; ring
    show addDaysISO dateISO (-((3 + rngFloor (lcgNext s) 26 : ℕ) : ℤ))
        = some ((addDaysISO dateISO (-(3 + (rngFloor (lcgNext s) 26 : ℤ)))).getD "")
    rw [hcast]
    simp only [addDaysISO, hymd, Option.map_some', Option.getD_some]

/-- Every generated record arises from `mkRecord` at one of the listed
installers. -/
theorem genList_mem (dateISO : String) :
    ∀ (insts : List String) (s : ℕ) (r : InstallRecord), r ∈ genList dateISO insts s →
      ∃ (inst : String) (s' : ℕ), inst ∈ insts ∧ r = (mkRecord dateISO inst s').1 := by
  intro insts
  induction insts with
  | nil => intro s r hr; cases hr
  | cons i rest ih =>
    intro s r hr
    simp only [genList] at hr
    rcases List.mem_cons.mp hr with rfl | hr2
    · exact ⟨i, s, List.mem_cons_self _ _, rfl⟩
    rcases List.mem_cons.mp hr2 with rfl | hr3
    · exact ⟨i, (mkRecord dateISO i s).2, List.mem_cons_self _ _, rfl⟩
    · obtain ⟨inst, s', h1, h2⟩ := ih _ r hr3
      exact ⟨inst, s', List.mem_cons_of_mem _ h1, h2⟩

/-- The generator emits exactly two records per occurrence of an installer
in the loop list. -/
theorem genList_count (dateISO inst : String) :
    ∀ (insts : List String) (s : ℕ),
      ((genList dateISO insts s).filter fun r => decide (r.installerName = inst)).length
        = 2 * insts.count inst := by
  intro insts
  induction insts with
  | nil => intro s; simp [genList]
  | cons i rest ih =>
    intro s
    simp only [genList, List.filter_cons, mkRecord_installerName]
    by_cases hi : i = inst
    · simp [hi, ih, List.count_cons, Nat.mul_add]
    · have hni : (inst == i) = false := by
        simp [Ne.symm hi]
      simp [hi, ih, List.count_cons, hni]

/-! Section: Claims -/

/-- Claim C1: For every group produced by the reporting aggregator in range
mode, the commission equals `round(subtotal * rate, 2)` with rate 0.05 for
technician grouping and 0.075 for installer grouping; in particular a
technician-grouped subtotal of 1000.00 yields commission 50.00. -/
theorem c1_commission_rates (recs : List InstallRecord) (selT selI : List String) :
    (∀ row ∈ techSummary recs selT selI, row.commission = round2 (row.total * (5 / 100))) ∧
    (∀ row ∈ installerSummary recs selT selI,
      row.commission = round2 (row.total * (75 / 1000))) ∧
    (∀ row ∈ techSummary recs selT selI, row.total = 1000 → row.commission = 50) := by
  refine ⟨fun row h => summaryRows_commission _ _ row h,
    fun row h => summaryRows_commission _ _ row h, fun row h htot => ?_⟩
  rw [summaryRows_commission _ _ row h, htot]
  have h5 : (1000 : ℚ) * (5 / 100) * 100 = ((5000 : ℤ) : ℚ) := by norm_num
  rw [round2, h5, round_intCast]
  norm_num

/-- A concrete record whose invoice amount is 1000.00. -/
def recThousand : InstallRecord :=
  { date := "2024-01-10", installDate := "2024-01-10", soldDate := "2024-01-05",
    invoiceAmount := 1000, customerName := "Demo, Customer",
    installerName := "Mike", soldByTech := "Austin" }

/-- Witness for C1: the commission formula evaluated on a one-record report
whose only technician group has subtotal 1000. -/
theorem c1_commission_rates_witness :
    ((techSummary [recThousand] TECHS INSTALLERS).headD default).commission
      = round2 (((techSummary [recThousand] TECHS INSTALLERS).headD default).total * (5 / 100)) :=
  (c1_commission_rates [recThousand] TECHS INSTALLERS).1 _ (headD_mem (by decide))

/-- A record whose selling technician is not in the configured roster. -/
def strayRecord : InstallRecord :=
  { date := "2024-01-10", installDate := "2024-01-10", soldDate := "2024-01-05",
    invoiceAmount := 100, customerName := "Stray, Sam",
    installerName := "Mike", soldByTech := "Zed" }

/-- Claim C2, counterexample: With the selected sets equal to the full `TECHS`
and `INSTALLERS` universes, a record whose technician is outside the roster
is silently dropped, so the grouped total falls short of the input total. -/
theorem c2_counterexample :
    ¬ (((grouped .tech (filtered [strayRecord] TECHS INSTALLERS)).map (·.subtotal)).sum
        = (([strayRecord] : List InstallRecord).map (·.invoiceAmount)).sum) := by
  have h1 : filtered [strayRecord] TECHS INSTALLERS = [] := by decide
  rw [h1]
  show ¬ ((0 : ℚ) = _)
  simp only [List.map_cons, List.map_nil, List.sum_cons, List.sum_nil, strayRecord]
  norm_num

/-- Claim C2, amended: If additionally every input record's technician lies in
the `TECHS` roster and its installer in the `INSTALLERS` set (the data-model
invariant of the spec), then with both filters equal to the full universes
the sum of the group subtotals equals the sum of all invoice amounts. -/
theorem c2_grand_total (recs : List InstallRecord) (mode : GroupMode)
    (hT : ∀ r ∈ recs, r.soldByTech ∈ TECHS)
    (hI : ∀ r ∈ recs, r.installerName ∈ INSTALLERS) :
    ((grouped mode (filtered recs TECHS INSTALLERS)).map (·.subtotal)).sum
      = (recs.map (·.invoiceAmount)).sum := by
  have hfil : filtered recs TECHS INSTALLERS = recs := by
    rw [filtered]
    apply List.filter_eq_self.mpr
    intro r hr
    simp [hT r hr, hI r hr]
  rw [hfil, grouped_subtotal_sum]

/-- Witness for the amended C2 at a concrete one-record input. -/
theorem c2_grand_total_witness :
    ((grouped .tech (filtered [recThousand] TECHS INSTALLERS)).map (·.subtotal)).sum
      = (([recThousand] : List InstallRecord).map (·.invoiceAmount)).sum :=
  c2_grand_total [recThousand] .tech (by decide) (by decide)

/-- Claim C4: A record appears in the filtered output iff its technician and
its installer are both selected; a technician selection excluding everyone
yields zero groups and a zero grand total. -/
theorem c4_filter_semantics (recs : List InstallRecord) (selT selI : List String) :
    (∀ r : InstallRecord,
      r ∈ filtered recs selT selI ↔
        r ∈ recs ∧ r.soldByTech ∈ selT ∧ r.installerName ∈ selI) ∧
    (∀ mode : GroupMode, grouped mode (filtered recs [] selI) = []) ∧
    (∀ mode : GroupMode, ((grouped mode (filtered recs [] selI)).map (·.subtotal)).sum = 0) ∧
    (∀ (mode : GroupMode) (rate : ℚ),
      summaryRows rate (grouped mode (filtered recs [] selI)) = []) := by
  have hemp : filtered recs [] selI = [] := by
    simp [filtered]
  refine ⟨fun r => ?_, fun mode => ?_, fun mode => ?_, fun mode rate => ?_⟩
  · simp [filtered, List.mem_filter, and_assoc]
  · rw [hemp]; rfl
  · rw [hemp]; rfl
  · rw [hemp]; rfl

/-- Undoing the quote doubling recovers the original character run. -/
theorem undouble_doubleQuotes : ∀ l : List Char, undouble (doubleQuotes l) = some l := by
  intro l
  induction l with
  | nil => rfl
  | cons c rest ih =>
    by_cases hc : c = quoteChar
    · subst hc
      simp [doubleQuotes, undouble, ih]
    · rw [doubleQuotes, if_neg hc, undouble.eq_def]
      simp only []
      rw [if_neg hc, ih, Option.map_some']

/-- The characters of an emitted cell: an opening quote, the doubled body,
a closing quote. -/
theorem csvCell_data (s : String) :
    (csvCell s).data = quoteChar :: (doubleQuotes s.data ++ [quoteChar]) := rfl

/-- Parsing an emitted cell recovers the original field value. -/
theorem csvUnquote_csvCell (s : String) : csvUnquote (csvCell s) = some s := by
  have h : csvUnquote (csvCell s)
      = if quoteChar = quoteChar ∧ (doubleQuotes s.data ++ [quoteChar]) ≠ []
            ∧ (doubleQuotes s.data ++ [quoteChar]).getLast? = some quoteChar
        then (undouble (doubleQuotes s.data ++ [quoteChar]).dropLast).map
          (fun l => (⟨l⟩ : String))
        else none := rfl
  rw [h, if_pos ⟨rfl, by simp, by rw [List.getLast?_concat]⟩,
    List.dropLast_concat, undouble_doubleQuotes, Option.map_some']

/-- Claim C3: CSV export emits one row per record plus one subtotal row per
group; every cell is quoted with embedded quotes doubled, and unquoting
recovers the original field value — in particular `O"Brien` is emitted as
`"O""Brien"`. -/
theorem c3_csv_roundtrip :
    (∀ s : String,
      csvCell s = "\"" ++ escapeQuotes s ++ "\"" ∧ csvUnquote (csvCell s) = some s) ∧
    csvCell "O\"Brien" = "\"O\"\"Brien\"" ∧
    (∀ (rate : ℚ) (gs : List Group),
      (exportLines rate gs).length = 1 + (gs.map fun g => g.rows.length + 1).sum) := by
  refine ⟨fun s => ⟨rfl, csvUnquote_csvCell s⟩, by decide, fun rate gs => ?_⟩
  rw [exportLines]
  induction gs with
  | nil => rfl
  | cons g rest ih =>
    simp only [List.flatMap_cons, List.map_cons, List.sum_cons, List.length_cons,
      List.length_append, List.length_map, List.length_nil] at ih ⊢
    omega

/-- Claim C5: Within every group the rows are sorted by invoice amount
descending; the detail-view groups are sorted alphabetically by label; the
range-mode summary rows are sorted by total descending. -/
theorem c5_output_ordering (mode : GroupMode) (recs : List InstallRecord) (rate : ℚ) :
    (∀ g ∈ grouped mode recs, List.Sorted amtGE g.rows) ∧
    List.Sorted (· ≤ ·) ((grouped mode recs).map (·.label)) ∧
    (∀ gs : List Group, List.Sorted totGE (summaryRows rate gs)) := by
  refine ⟨fun g hg => ?_, ?_, fun gs => List.sorted_insertionSort totGE _⟩
  · simp only [grouped, List.mem_map] at hg
    obtain ⟨lab, _, rfl⟩ := hg
    exact List.sorted_insertionSort amtGE _
  · have hmap : (grouped mode recs).map (·.label)
        = List.insertionSort (· ≤ ·) (firstDedup (recs.map (keyFor mode))) := by
      unfold grouped
      rw [List.map_map]
      generalize List.insertionSort (· ≤ ·) (firstDedup (recs.map (keyFor mode))) = L
      induction L with
      | nil => rfl
      | cons a t ih => simpa using ih
    rw [hmap]
    exact List.sorted_insertionSort _ _

/-- Witness for C5: the ordering facts applied to a concrete one-record
report. -/
theorem c5_output_ordering_witness :
    List.Sorted amtGE (((grouped .tech [recThousand]).headD default).rows) :=
  (c5_output_ordering .tech [recThousand] 0).1 _ (headD_mem (by decide))

/-- Claim C6: Every generated record's sold date is the install date shifted
back by the generated sold offset, always between 3 and 28 days; in
particular shifting `2024-01-10` back 5 days gives `2024-01-05`. -/
theorem c6_sold_offset :
    (∀ dateISO : String, (parseISO dateISO).isSome →
      ∀ r ∈ fetchInstallsDemo dateISO,
        ∃ off : ℕ, 3 ≤ off ∧ off ≤ 28 ∧
          addDaysISO r.installDate (-(off : ℤ)) = some r.soldDate) ∧
    addDaysISO "2024-01-10" (-5) = some "2024-01-05" := by
  constructor
  · intro dateISO h r hr
    obtain ⟨inst, s', _, rfl⟩ := genList_mem dateISO INSTALLERS _ r hr
    exact mkRecord_soldDate dateISO inst s' h
  · decide

/-- Witness for C6: the sold-offset fact applied to the first record
generated for 2024-01-10. -/
theorem c6_sold_offset_witness :
    ∃ off : ℕ, 3 ≤ off ∧ off ≤ 28 ∧
      addDaysISO ((fetchInstallsDemo "2024-01-10").headD default).installDate (-(off : ℤ))
        = some ((fetchInstallsDemo "2024-01-10").headD default).soldDate :=
  c6_sold_offset.1 "2024-01-10" (by decide) _ (headD_mem (by decide))

/-- Claim C9: Every generated record references a technician on the configured
roster and an installer in the configured set, its install date is the
requested date, and the generator emits exactly two records per configured
installer per date. -/
theorem c9_generator_invariants (dateISO : String) :
    (∀ r ∈ fetchInstallsDemo dateISO,
      r.soldByTech ∈ TECHS ∧ r.installerName ∈ INSTALLERS ∧ r.installDate = dateISO) ∧
    (∀ inst ∈ INSTALLERS,
      ((fetchInstallsDemo dateISO).filter fun r => decide (r.installerName = inst)).length
        = 2) := by
  constructor
  · intro r hr
    obtain ⟨inst, s', hinst, rfl⟩ := genList_mem dateISO INSTALLERS _ r hr
    exact ⟨mkRecord_soldByTech_mem _ _ _,
      by rw [mkRecord_installerName]; exact hinst, mkRecord_installDate _ _ _⟩
  · intro inst hinst
    rw [fetchInstallsDemo, genList_count]
    rw [List.count_eq_one_of_mem (by decide) hinst]

/-- Witness for C9: the invariants at the concrete date 2024-01-10, and the
per-installer record count for installer Mike. -/
theorem c9_generator_invariants_witness :
    (((fetchInstallsDemo "2024-01-10").headD default).soldByTech ∈ TECHS ∧
      ((fetchInstallsDemo "2024-01-10").headD default).installerName ∈ INSTALLERS ∧
      ((fetchInstallsDemo "2024-01-10").headD default).installDate = "2024-01-10") ∧
    ((fetchInstallsDemo "2024-01-10").filter
      fun r => decide (r.installerName = "Mike")).length = 2 :=
  ⟨(c9_generator_invariants "2024-01-10").1 _ (headD_mem (by decide)),
   (c9_generator_invariants "2024-01-10").2 "Mike" (by decide)⟩

/-- Claim C7, counterexample: A well-formed 200 response whose `technicians`
field holds the (truthy, non-list) number 5 makes `getTechnicians` return
that number verbatim — not the empty list the claim requires on a shape
mismatch. -/
theorem c7_counterexample :
    getTechnicians (.response true (some (.obj [("technicians", .num 5)]))) = .num 5 ∧
    isArr (getTechnicians (.response true (some (.obj [("technicians", .num 5)])))) = false := by
  constructor <;> rfl

/-- Claim C7, amended: `getTechnicians` is total (never throws), and on
every outcome its result is fully determined: it returns `[]` on a network
error, on a non-ok status, on an unparseable body, on a null body, and on a
missing or falsy `technicians` field; and when the `technicians` field is
truthy it returns exactly that field's value verbatim (the payload's list
whenever the payload is well-shaped). -/
theorem c7_fail_soft (o : FetchOutcome) :
    (o = .netError → getTechnicians o = .arr []) ∧
    (∀ body : Option Json, o = .response false body → getTechnicians o = .arr []) ∧
    (o = .response true none → getTechnicians o = .arr []) ∧
    (o = .response true (some .null) → getTechnicians o = .arr []) ∧
    (∀ data : Json, o = .response true (some data) →
      getField data "technicians" = none → getTechnicians o = .arr []) ∧
    (∀ data v : Json, o = .response true (some data) →
      getField data "technicians" = some v → truthy v = false →
      getTechnicians o = .arr []) ∧
    (∀ data v : Json, o = .response true (some data) →
      getField data "technicians" = some v → truthy v = true →
      getTechnicians o = v) := by
  refine ⟨fun h => by subst h; rfl,
          fun body h => by subst h; rfl,
          fun h => by subst h; rfl,
          fun h => by subst h; rfl,
          fun data h1 h2 => ?_,
          fun data v h1 h2 h3 => ?_,
          fun data v h1 h2 h3 => ?_⟩
  · subst h1
    cases data with
    | null => rfl
    | bool b => rfl
    | num q => rfl
    | str s => rfl
    | arr xs => rfl
    | obj fields =>
      show (match getField (.obj fields) "technicians" with
        | some v => if truthy v then v else .arr []
        | none => .arr []) = .arr []
      rw [h2]
  · subst h1
    cases data with
    | null => simp [getField] at h2
    | bool b => simp [getField] at h2
    | num q => simp [getField] at h2
    | str s => simp [getField] at h2
    | arr xs => simp [getField] at h2
    | obj fields =>
      show (match getField (.obj fields) "technicians" with
        | some v => if truthy v then v else .arr []
        | none => .arr []) = .arr []
      rw [h2]
      show (if truthy v = true then v else Json.arr []) = Json.arr []
      rw [if_neg (by simp [h3])]
  · subst h1
    cases data with
    | null => simp [getField] at h2
    | bool b => simp [getField] at h2
    | num q => simp [getField] at h2
    | str s => simp [getField] at h2
    | arr xs => simp [getField] at h2
    | obj fields =>
      show (match getField (.obj fields) "technicians" with
        | some v => if truthy v then v else .arr []
        | none => .arr []) = v
      rw [h2]
      show (if truthy v = true then v else Json.arr []) = v
      rw [if_pos h3]

/-- Witness for the amended C7: a success payload with a truthy technicians
list is returned verbatim, and a network error yields the empty list. -/
theorem c7_fail_soft_witness :
    getTechnicians (.response true (some (.obj [("technicians", .arr [.str "t1"])])))
      = .arr [.str "t1"] ∧
    getTechnicians .netError = .arr [] :=
  ⟨(c7_fail_soft (.response true (some (.obj [("technicians", .arr [.str "t1"])])))).2.2.2.2.2.2
      (.obj [("technicians", .arr [.str "t1"])]) (.arr [.str "t1"]) rfl rfl rfl,
   (c7_fail_soft .netError).1 rfl⟩

/-- Claim C8: Missing configuration yields a 500 with an error body before any
upstream call; a failed token exchange is surfaced with its status and body
verbatim after exactly one upstream call; a failed resource fetch is
surfaced with its status and body verbatim after exactly one call to each
upstream, with neither call retried. -/
theorem c8_proxy_error_paths (env : EnvConfig) (tokenResp resResp : HttpResp) :
    (envMissing env = true →
      handler env tokenResp resResp
        = { statusCode := 500, body := .errorJson missingEnvMsg, calls := [] }) ∧
    (envMissing env = false → respOk tokenResp = false →
      handler env tokenResp resResp
        = { statusCode := tokenResp.status, body := .raw tokenResp.bodyText,
            calls := [.tokenExchange] }) ∧
    (envMissing env = false → respOk tokenResp = true → respOk resResp = false →
      ∀ tj : Json, tokenResp.bodyJson = some tj → tj ≠ .null →
        handler env tokenResp resResp
          = { statusCode := resResp.status, body := .raw resResp.bodyText,
              calls := [.tokenExchange, .resourceFetch] }) := by
  refine ⟨fun hmiss => ?_, fun hmiss htok => ?_, fun hmiss htok hres tj htj hnn => ?_⟩
  · rw [handler, if_pos hmiss]
  · rw [handler, if_neg (by simp [hmiss]), if_pos (by simp [htok])]
  · rw [handler, if_neg (by simp [hmiss]), if_neg (by simp [htok]), htj]
    cases tj with
    | null => exact absurd rfl hnn
    | bool b => rw [if_pos (by simp [hres])]
    | num q => rw [if_pos (by simp [hres])]
    | str s => rw [if_pos (by simp [hres])]
    | arr xs => rw [if_pos (by simp [hres])]
    | obj fields => rw [if_pos (by simp [hres])]

/-- Witness for C8: the three error paths at concrete configurations and
upstream responses. -/
theorem c8_proxy_error_paths_witness :
    (handler ⟨"", "t1", "k", "cid", "sec"⟩ ⟨200, "", none⟩ ⟨200, "", none⟩
      = { statusCode := 500, body := .errorJson missingEnvMsg, calls := [] }) ∧
    (handler ⟨"https://api", "t1", "k", "cid", "sec"⟩ ⟨401, "bad client", none⟩ ⟨200, "", none⟩
      = { statusCode := 401, body := .raw "bad client", calls := [.tokenExchange] }) ∧
    (handler ⟨"https://api", "t1", "k", "cid", "sec"⟩
        ⟨200, "", some (.obj [("access_token", .str "tok")])⟩ ⟨503, "down", none⟩
      = { statusCode := 503, body := .raw "down",
          calls := [.tokenExchange, .resourceFetch] }) :=
  ⟨(c8_proxy_error_paths _ _ _).1 (by decide),
   (c8_proxy_error_paths _ _ _).2.1 (by decide) (by decide),
   (c8_proxy_error_paths _ _ _).2.2 (by decide) (by decide) (by decide)
     (.obj [("access_token", .str "tok")]) rfl (by intro h; cases h)⟩

/-- Claim C10, counterexample: A 200 response whose upstream `data` field is
the (truthy, non-array) number 5 produces `technicians: 5` and `count: 0`,
not the empty technicians list the claim requires when the data array is
absent. -/
theorem c10_counterexample :
    (handler ⟨"https://api", "123", "k", "cid", "sec"⟩
        ⟨200, "", some (.obj [("access_token", .str "tok")])⟩
        ⟨200, "", some (.obj [("data", .num 5)])⟩).body
      = .payload "/settings/v2/tenant/123/technicians" "bearer+appkey" (.num 0) (.num 5) ∧
    isArr (Json.num 5) = false := by
  constructor <;> rfl

/-- Claim C10, amended: In every successful (200) proxy response whose
upstream `data` field is an array or is absent, `count` equals the length of
`technicians`, and `technicians` is that array (the empty list when it is
absent). -/
theorem c10_success_shape (env : EnvConfig) (tokenResp resResp : HttpResp)
    (henv : envMissing env = false) (htok : respOk tokenResp = true)
    (tj : Json) (htj : tokenResp.bodyJson = some tj) (hnn : tj ≠ .null)
    (hres : respOk resResp = true) (data : Json) (hdata : resResp.bodyJson = some data) :
    (handler env tokenResp resResp).statusCode = 200 ∧
    (∀ xs : List Json, getField data "data" = some (.arr xs) →
      (handler env tokenResp resResp).body
        = .payload ("/settings/v2/tenant/" ++ env.stTenantId ++ "/technicians")
            "bearer+appkey" (.num xs.length) (.arr xs)) ∧
    (getField data "data" = none →
      (handler env tokenResp resResp).body
        = .payload ("/settings/v2/tenant/" ++ env.stTenantId ++ "/technicians")
            "bearer+appkey" (.num 0) (.arr [])) := by
  have hbody : handler env tokenResp resResp
      = { statusCode := 200,
          body := .payload ("/settings/v2/tenant/" ++ env.stTenantId ++ "/technicians")
            "bearer+appkey" (countOf data) (techsOf data),
          calls := [.tokenExchange, .resourceFetch] } := by
    rw [handler, if_neg (by simp [henv]), if_neg (by simp [htok]), htj]
    cases tj with
    | null => exact absurd rfl hnn
    | bool b => rw [if_neg (by simp [hres]), hdata]
    | num q => rw [if_neg (by simp [hres]), hdata]
    | str s => rw [if_neg (by simp [hres]), hdata]
    | arr xs => rw [if_neg (by simp [hres]), hdata]
    | obj fields => rw [if_neg (by simp [hres]), hdata]
  refine ⟨by rw [hbody], fun xs hxs => ?_, fun habs => ?_⟩
  · rw [hbody]
    have hcount : countOf data = .num xs.length := by
      rw [countOf, hxs]
      by_cases hz : (xs.length : ℚ) = 0
      · simp only [jsLength, truthy, hz]
        norm_num
      · simp only [jsLength, truthy]
        rw [if_pos (by simp [hz])]
    have htechs : techsOf data = .arr xs := by
      rw [techsOf, hxs]
      rfl
    rw [hcount, htechs]
  · rw [hbody]
    have hcount : countOf data = .num 0 := by rw [countOf, habs]
    have htechs : techsOf data = .arr [] := by rw [techsOf, habs]
    rw [hcount, htechs]

/-- Witness for the amended C10: a concrete success round trip with a
two-element upstream data array. -/
theorem c10_success_shape_witness :
    (handler ⟨"https://api", "123", "k", "cid", "sec"⟩
        ⟨200, "", some (.obj [("access_token", .str "tok")])⟩
        ⟨200, "", some (.obj [("data", .arr [.str "a", .str "b"])])⟩).body
      = .payload "/settings/v2/tenant/123/technicians" "bearer+appkey"
          (.num 2) (.arr [.str "a", .str "b"]) := by
  have h := (c10_success_shape ⟨"https://api", "123", "k", "cid", "sec"⟩
    ⟨200, "", some (.obj [("access_token", .str "tok")])⟩
    ⟨200, "", some (.obj [("data", .arr [.str "a", .str "b"])])⟩
    (by decide) (by decide) (.obj [("access_token", .str "tok")]) rfl
    (by intro h; cases h) (by decide) (.obj [("data", .arr [.str "a", .str "b"])]) rfl).2.1
    [.str "a", .str "b"] rfl
  simpa using h

end InstallTracker
